import Mathlib

/-!
Shallow embedding of the configuration loader/validator of
yet-another-cloudwatch-exporter (`pkg/config.go`).

Go slices are nilable and the validator distinguishes a nil slice from a
non-nil empty one (`c.Discovery.Jobs == nil`), so the two top-level job
lists are embedded as `Option (List _)`: `none` is a Go nil slice, `some l`
a non-nil slice with elements `l`.  All other slice fields are only ever
inspected through `len`, where nil and empty coincide, so they are plain
lists.  Go `int` fields are embedded as `Int`; no arithmetic beyond
comparison is performed on them, so overflow cannot arise.  Error values
built with `fmt.Errorf` are embedded as their formatted message `String`;
messages printed through `log.Warningf` are collected in a `List String`
alongside the `Option String` error result.
-/

namespace Yace

/-- `exportedTagsOnMetrics` (`config.go`): a map from service type to tag
names, embedded as an association list; no code under test reads it. -/
abbrev exportedTagsOnMetrics := List (String × List String)

/-- `Tag` (`config.go`). -/
structure Tag where
  Key : String
  Value : String
deriving DecidableEq

/-- `Dimension` (`config.go`). -/
structure Dimension where
  Name : String
  Value : String
deriving DecidableEq

/-- `Metric` (`config.go`).  `Period`, `Length`, `Delay` are Go `int`s. -/
structure Metric where
  Name : String := ""
  Statistics : List String := []
  AdditionalDimensions : List Dimension := []
  Period : Int := 0
  Length : Int := 0
  Delay : Int := 0
  NilToZero : Bool := false
  AddCloudwatchTimestamp : Bool := false
deriving DecidableEq

/-- `Job` (`config.go`): one discovery job.  The Go field `Type` is named
`Type'` because `Type` is reserved in Lean. -/
structure Job where
  Regions : List String := []
  Type' : String := ""
  RoleArns : List String := []
  AwsDimensions : List String := []
  SearchTags : List Tag := []
  CustomTags : List Tag := []
  Metrics : List Metric := []
  Length : Int := 0
  Delay : Int := 0
  Period : Int := 0
  AddCloudwatchTimestamp : Bool := false
deriving DecidableEq

/-- `Static` (`config.go`): one static job. -/
structure Static where
  Name : String := ""
  Regions : List String := []
  RoleArns : List String := []
  Namespace : String := ""
  CustomTags : List Tag := []
  Dimensions : List Dimension := []
  Metrics : List Metric := []
deriving DecidableEq

/-- `Discovery` (`config.go`).  `Jobs` is a nilable Go slice. -/
structure Discovery where
  ExportedTagsOnMetrics : exportedTagsOnMetrics := []
  Jobs : Option (List Job) := none
deriving DecidableEq

/-- `ScrapeConf` (`config.go`).  `Static` is a nilable Go slice. -/
structure ScrapeConf where
  Discovery : Discovery := {}
  Static : Option (List Static) := none
deriving DecidableEq

/-- `supportedServices` (`config.go`): the fixed allow-list of service
identifiers for discovery jobs. -/
def supportedServices : List String :=
  ["alb", "apigateway", "appsync", "asg", "cf", "docdb", "dynamodb", "ebs",
   "ec", "ec2", "ec2Spot", "ecs-svc", "ecs-containerinsights", "efs", "elb",
   "emr", "es", "firehose", "fsx", "gamelift", "kafka", "kinesis", "lambda",
   "ngw", "nlb", "rds", "redshift", "r53r", "s3", "sfn", "sns", "sqs",
   "tgw", "tgwa", "vpn", "wafv2"]

/-- Modelled from the spec: the helper `stringInSlice` is called by
`validateDiscoveryJob` but defined in a repository file outside the
provided source; the spec describes it as "an exact, case-sensitive
membership test" of a string in the allow-list. -/
def stringInSlice (a : String) : List String → Bool
  | [] => false
  | b :: bs => if b = a then true else stringInSlice a bs

/-- Message of `fmt.Errorf` in `validateMetric` for an empty `Name`. -/
def metricNameMsg (m : Metric) (metricIdx : Nat) (parent : String) : String :=
  "Metric [" ++ m.Name ++ "/" ++ toString metricIdx ++ "] in " ++ parent ++
    ": Name should not be empty"

/-- Message of `fmt.Errorf` in `validateMetric` for empty `Statistics`. -/
def metricStatsMsg (m : Metric) (metricIdx : Nat) (parent : String) : String :=
  "Metric [" ++ m.Name ++ "/" ++ toString metricIdx ++ "] in " ++ parent ++
    ": Statistics should not be empty"

/-- Message of `fmt.Errorf` in `validateMetric` for a non-positive
effective period. -/
def metricPeriodMsg (m : Metric) (metricIdx : Nat) (parent : String) : String :=
  "Metric [" ++ m.Name ++ "/" ++ toString metricIdx ++ "] in " ++ parent ++
    ": Period value should be a positive integer"

/-- Message of `log.Warningf` in `validateMetric` when the effective length
is smaller than the effective period. -/
def metricLengthWarnMsg (m : Metric) (metricIdx : Nat) (parent : String)
    (mLength mPeriod : Int) : String :=
  "Metric [" ++ m.Name ++ "/" ++ toString metricIdx ++ "] in " ++ parent ++
    ": length(" ++ toString mLength ++ ") is smaller than period(" ++
    toString mPeriod ++
    "). This can cause that the data requested is not ready and generate data gaps"

/-- The `mPeriod` computed by `validateMetric`: `mPeriod := m.Period`,
replaced by `discovery.Period` when it is zero and the `discovery` pointer
is non-nil. -/
def effPeriod (m : Metric) (discovery : Option Job) : Int :=
  match discovery with
  | some d => if m.Period = 0 then d.Period else m.Period
  | none => m.Period

/-- The `mLength` computed by `validateMetric`: `mLength := m.Length`,
replaced by `discovery.Length` when it is zero and the `discovery` pointer
is non-nil. -/
def effLength (m : Metric) (discovery : Option Job) : Int :=
  match discovery with
  | some d => if m.Length = 0 then d.Length else m.Length
  | none => m.Length

/-- `validateMetric` (`config.go`): returns the warnings it logs and the
error it returns.  `discovery` is the Go `*Job` pointer (`none` = nil). -/
def validateMetric (m : Metric) (metricIdx : Nat) (parent : String)
    (discovery : Option Job) : List String × Option String :=
  if m.Name = "" then ([], some (metricNameMsg m metricIdx parent))
  else if m.Statistics = [] then ([], some (metricStatsMsg m metricIdx parent))
  else if effPeriod m discovery < 1 then
    ([], some (metricPeriodMsg m metricIdx parent))
  else if effLength m discovery < effPeriod m discovery then
    ([metricLengthWarnMsg m metricIdx parent (effLength m discovery) (effPeriod m discovery)],
     none)
  else ([], none)

/-- The Go `for idx, x := range xs { if err := f(idx, x); err != nil
\x7b return err \x7d }` pattern over a validator that both logs warnings and
may return an error: warnings of all iterations up to and including the
failing one are kept, and the first error stops the loop. -/
def runAll (f : Nat → α → List String × Option String) :
    Nat → List α → List String × Option String
  | _, [] => ([], none)
  | i, x :: xs =>
    match f i x with
    | (w, some e) => (w, some e)
    | (w, none) => (w ++ (runAll f (i + 1) xs).1, (runAll f (i + 1) xs).2)

/-- The `parent` string built in `validateDiscoveryJob`. -/
def discParent (t : String) (jobIdx : Nat) : String :=
  "Discovery job [" ++ t ++ "/" ++ toString jobIdx ++ "]"

/-- Message for a discovery-job type outside the allow-list. -/
def discTypeNotInListMsg (jobIdx : Nat) (t : String) : String :=
  "Discovery job [" ++ toString jobIdx ++ "]: Service is not in known list!: " ++ t

/-- Message for an empty discovery-job type. -/
def discTypeEmptyMsg (jobIdx : Nat) : String :=
  "Discovery job [" ++ toString jobIdx ++ "]: Type should not be empty"

/-- Message for empty discovery-job regions. -/
def discRegionsMsg (t : String) (jobIdx : Nat) : String :=
  "Discovery job [" ++ t ++ "/" ++ toString jobIdx ++ "]: Regions should not be empty"

/-- Message for empty discovery-job metrics. -/
def discMetricsMsg (t : String) (jobIdx : Nat) : String :=
  "Discovery job [" ++ t ++ "/" ++ toString jobIdx ++ "]: Metrics should not be empty"

/-- `validateDiscoveryJob` (`config.go`). -/
def validateDiscoveryJob (j : Job) (jobIdx : Nat) : List String × Option String :=
  if j.Type' = "" then ([], some (discTypeEmptyMsg jobIdx))
  else if stringInSlice j.Type' supportedServices = false then
    ([], some (discTypeNotInListMsg jobIdx j.Type'))
  else if j.Regions = [] then ([], some (discRegionsMsg j.Type' jobIdx))
  else if j.Metrics = [] then ([], some (discMetricsMsg j.Type' jobIdx))
  else
    runAll (fun i m => validateMetric m i (discParent j.Type' jobIdx) (some j))
      0 j.Metrics

/-- The `parent` string built in `validateStaticJob`. -/
def staticParent (name : String) (jobIdx : Nat) : String :=
  "Static job [" ++ name ++ "/" ++ toString jobIdx ++ "]"

/-- Message for an empty static-job name. -/
def staticNameMsg (jobIdx : Nat) : String :=
  "Static job [" ++ toString jobIdx ++ "]: Name should not be empty"

/-- Message for an empty static-job namespace. -/
def staticNamespaceMsg (name : String) (jobIdx : Nat) : String :=
  "Static job [" ++ name ++ "/" ++ toString jobIdx ++ "]: Namespace should not be empty"

/-- Message for empty static-job regions. -/
def staticRegionsMsg (name : String) (jobIdx : Nat) : String :=
  "Static job [" ++ name ++ "/" ++ toString jobIdx ++ "]: Regions should not be empty"

/-- `validateStaticJob` (`config.go`). -/
def validateStaticJob (j : Static) (jobIdx : Nat) : List String × Option String :=
  if j.Name = "" then ([], some (staticNameMsg jobIdx))
  else if j.Namespace = "" then ([], some (staticNamespaceMsg j.Name jobIdx))
  else if j.Regions = [] then ([], some (staticRegionsMsg j.Name jobIdx))
  else
    runAll (fun i m => validateMetric m i (staticParent j.Name jobIdx) none)
      0 j.Metrics

/-- The root-invariant message of `validate` (`config.go`). -/
def rootMsg : String := "At least 1 Discovery job or 1 Static must be defined"

/-- `validate` (`config.go`): the root nil-check, then the discovery jobs
in order, then the static jobs in order, stopping at the first error.
Ranging over a nil Go slice iterates zero times, which `Option.getD []`
reproduces. -/
def ScrapeConf.validate (c : ScrapeConf) : List String × Option String :=
  if c.Discovery.Jobs = none ∧ c.Static = none then ([], some rootMsg)
  else
    match runAll (fun i j => validateDiscoveryJob j i) 0 (c.Discovery.Jobs.getD []) with
    | (w, some e) => (w, some e)
    | (w, none) =>
      (w ++ (runAll (fun i j => validateStaticJob j i) 0 (c.Static.getD [])).1,
       (runAll (fun i j => validateStaticJob j i) 0 (c.Static.getD [])).2)

/-- The `RoleArns` defaulting applied to one discovery job by `Load`
(`config.go` lines 117-121). -/
def fixJobRoles (j : Job) : Job :=
  if j.RoleArns = [] then { j with RoleArns := [""] } else j

/-- The `RoleArns` defaulting applied to one static job by `Load`
(`config.go` lines 122-126). -/
def fixStaticRoles (s : Static) : Static :=
  if s.RoleArns = [] then { s with RoleArns := [""] } else s

/-- The in-place normalization step of `Load`: default every empty
`RoleArns` list to `[""]`.  Ranging over a nil slice mutates nothing,
which `Option.map` reproduces. -/
def ScrapeConf.normalizeRoles (c : ScrapeConf) : ScrapeConf :=
  { c with
    Discovery := { c.Discovery with Jobs := c.Discovery.Jobs.map (List.map fixJobRoles) },
    Static := c.Static.map (List.map fixStaticRoles) }

/-- `Load` (`config.go`) after a successful decode: the receiver is
normalized in place, then validated; the final receiver state is returned
together with the warnings logged and the error returned. -/
def ScrapeConf.load (c : ScrapeConf) : ScrapeConf × (List String × Option String) :=
  let c' := c.normalizeRoles
  (c', c'.validate)

/-- `needle` occurs as a contiguous substring of `hay`. -/
def strIncludes (hay needle : String) : Prop :=
  ∃ a b : List Char, hay.data = a ++ (needle.data ++ b)

/-- Modelled from the spec: the list of rule-violation messages of one
metric, in the spec's documented rule order (name, statistics, period). -/
def metricViolations (m : Metric) (metricIdx : Nat) (parent : String)
    (discovery : Option Job) : List String :=
  (if m.Name = "" then [metricNameMsg m metricIdx parent] else []) ++
  (if m.Statistics = [] then [metricStatsMsg m metricIdx parent] else []) ++
  (if effPeriod m discovery < 1 then [metricPeriodMsg m metricIdx parent] else [])

/-- The violation lists of the elements of `xs`, indexed from `s`,
concatenated in sequence order. -/
def vlist (g : Nat → α → List String) : Nat → List α → List String
  | _, [] => []
  | i, x :: xs => g i x ++ vlist g (i + 1) xs

/-- Modelled from the spec: the rule-violation messages of one discovery
job, in the spec's documented rule order (type, regions, metrics-nonempty,
then each metric in sequence order). -/
def discJobViolations (j : Job) (jobIdx : Nat) : List String :=
  (if j.Type' = "" then [discTypeEmptyMsg jobIdx]
   else if stringInSlice j.Type' supportedServices = false then
     [discTypeNotInListMsg jobIdx j.Type']
   else []) ++
  (if j.Regions = [] then [discRegionsMsg j.Type' jobIdx] else []) ++
  (if j.Metrics = [] then [discMetricsMsg j.Type' jobIdx] else []) ++
  vlist (fun i m => metricViolations m i (discParent j.Type' jobIdx) (some j)) 0 j.Metrics

/-- Modelled from the spec: the rule-violation messages of one static job,
in the spec's documented rule order (name, namespace, regions, then each
metric in sequence order). -/
def staticJobViolations (j : Static) (jobIdx : Nat) : List String :=
  (if j.Name = "" then [staticNameMsg jobIdx] else []) ++
  (if j.Namespace = "" then [staticNamespaceMsg j.Name jobIdx] else []) ++
  (if j.Regions = [] then [staticRegionsMsg j.Name jobIdx] else []) ++
  vlist (fun i m => metricViolations m i (staticParent j.Name jobIdx) none) 0 j.Metrics

/-- Modelled from the spec: every rule violation of the configuration in
the spec's documented order: root invariant first, then discovery jobs in
sequence order, then static jobs in sequence order, with each job's
metrics in sequence order. -/
def specViolations (c : ScrapeConf) : List String :=
  if c.Discovery.Jobs = none ∧ c.Static = none then [rootMsg]
  else
    vlist (fun i j => discJobViolations j i) 0 (c.Discovery.Jobs.getD []) ++
    vlist (fun i j => staticJobViolations j i) 0 (c.Static.getD [])

/-- The metric of the spec's Scenario B: `CPUUtilization`, statistics
`["Average"]`, period 300, no explicit length. -/
def scenarioBMetric : Metric := ⟨"CPUUtilization", ["Average"], [], 300, 0, 0, false, false⟩

/-- The discovery job of the spec's Scenario B: type `ec2`, one region,
job-level length 60. -/
def scenarioBJob : Job :=
  ⟨["us-east-1"], "ec2", [], [], [], [], [scenarioBMetric], 60, 0, 0, false⟩

/-- The configuration of the spec's Scenario B. -/
def scenarioB : ScrapeConf := ⟨⟨[], some [scenarioBJob]⟩, none⟩

end Yace

namespace Yace

theorem strIncludes_of_data (hay n : String) (a b : List Char)
    (h : hay.data = a ++ (n.data ++ b)) : strIncludes hay n :=
  ⟨a, b, h⟩

theorem stringInSlice_iff (a : String) (l : List String) :
    stringInSlice a l = true ↔ a ∈ l := by
  induction l with
  | nil => simp [stringInSlice]
  | cons b bs ih =>
    simp only [stringInSlice]
    by_cases hb : b = a
    · simp [hb]
    · simp only [if_neg hb, ih, List.mem_cons]
      constructor
      · exact Or.inr
      · rintro (h | h)
        · exact absurd h.symm hb
        · exact h

theorem runAll_err_none (f : Nat → α → List String × Option String) :
    ∀ (xs : List α) (s : Nat), (runAll f s xs).2 = none →
      ∀ (i : Nat) (hi : i < xs.length), (f (s + i) (xs.get ⟨i, hi⟩)).2 = none := by
  intro xs
  induction xs with
  | nil => intro s h i hi; exact absurd hi (by simp)
  | cons x tl ih =>
    intro s h i hi
    unfold runAll at h
    split at h
    · simp at h
    · rename_i w heq
      cases i with
      | zero => simp [heq]
      | succ i =>
        have h' : (runAll f (s + 1) tl).2 = none := h
        have := ih (s + 1) h' i (by simpa using Nat.lt_of_succ_lt_succ hi)
        simpa [Nat.add_assoc, Nat.add_comm 1 i] using this

theorem runAll_err_at (f : Nat → α → List String × Option String) :
    ∀ (xs : List α) (s i : Nat) (hi : i < xs.length) (e : String),
      (∀ k (hk : k < i), (f (s + k) (xs.get ⟨k, Nat.lt_trans hk hi⟩)).2 = none) →
      (f (s + i) (xs.get ⟨i, hi⟩)).2 = some e →
      (runAll f s xs).2 = some e := by
  intro xs
  induction xs with
  | nil => intro s i hi; exact absurd hi (by simp)
  | cons x tl ih =>
    intro s i hi e hprev hcur
    cases i with
    | zero =>
      have hcur' : (f s x).2 = some e := by simpa using hcur
      rcases hx : f s x with ⟨w, eo⟩
      rw [hx] at hcur'
      simp only at hcur'
      subst hcur'
      unfold runAll
      rw [hx]
    | succ i =>
      have h0 : (f s x).2 = none := by simpa using hprev 0 (Nat.succ_pos i)
      rcases hx : f s x with ⟨w, eo⟩
      rw [hx] at h0
      simp only at h0
      subst h0
      unfold runAll
      rw [hx]
      simp only
      apply ih (s + 1) i (Nat.lt_of_succ_lt_succ hi) e
      · intro k hk
        have := hprev (k + 1) (Nat.succ_lt_succ hk)
        simpa [Nat.add_assoc, Nat.add_comm 1 k] using this
      · simpa [Nat.add_assoc, Nat.add_comm 1 i] using hcur

theorem validateMetric_err_none {m : Metric} {k : Nat} {p : String} {d : Option Job}
    (h : (validateMetric m k p d).2 = none) :
    m.Name ≠ "" ∧ m.Statistics ≠ [] ∧ 1 ≤ effPeriod m d := by
  unfold validateMetric at h
  split_ifs at h with h1 h2 h3 h4 <;> simp_all

theorem validateDiscoveryJob_err_none {j : Job} {i : Nat}
    (h : (validateDiscoveryJob j i).2 = none) :
    j.Type' ≠ "" ∧ stringInSlice j.Type' supportedServices = true := by
  unfold validateDiscoveryJob at h
  split_ifs at h with h1 h2 h3 h4 <;> simp_all

theorem validateStaticJob_err_none {j : Static} {i : Nat}
    (h : (validateStaticJob j i).2 = none) :
    j.Name ≠ "" ∧ j.Namespace ≠ "" ∧ j.Regions ≠ [] ∧
      (runAll (fun k m => validateMetric m k (staticParent j.Name i) none)
        0 j.Metrics).2 = none := by
  unfold validateStaticJob at h
  split_ifs at h with h1 h2 h3 <;> simp_all

theorem validate_err_none_disc {c : ScrapeConf} (h : (c.validate).2 = none) :
    (runAll (fun i j => validateDiscoveryJob j i) 0 (c.Discovery.Jobs.getD [])).2 = none := by
  unfold ScrapeConf.validate at h
  split at h
  · simp at h
  · split at h
    · simp_all
    · rename_i w heq
      rw [heq]

theorem validate_err_none_static {c : ScrapeConf} (h : (c.validate).2 = none) :
    (runAll (fun i j => validateStaticJob j i) 0 (c.Static.getD [])).2 = none := by
  unfold ScrapeConf.validate at h
  split at h
  · simp at h
  · split at h
    · simp_all
    · exact h

theorem getD_map_lt (f : α → β) (l : List α) (i : Nat) (d : α) (d' : β)
    (hi : i < l.length) : (l.map f).getD i d' = f (l.getD i d) := by
  induction l generalizing i with
  | nil => simp at hi
  | cons x xs ih =>
    cases i with
    | zero => rfl
    | succ i => exact ih i (by simpa using Nat.lt_of_succ_lt_succ hi)

theorem fixJobRoles_roleArns_ne (j : Job) : (fixJobRoles j).RoleArns ≠ [] := by
  unfold fixJobRoles
  split_ifs with h
  · simp
  · exact h

theorem fixStaticRoles_roleArns_ne (s : Static) : (fixStaticRoles s).RoleArns ≠ [] := by
  unfold fixStaticRoles
  split_ifs with h
  · simp
  · exact h

theorem head?_append_some (l1 l2 : List Char) (a : Char) (h : l1.head? = some a) :
    (l1 ++ l2).head? = some a := by
  cases l1 with
  | nil => simp at h
  | cons x xs => simpa using h

theorem data_head_append (a b : String) (c : Char) (h : a.data.head? = some c) :
    (a ++ b).data.head? = some c := by
  rw [String.data_append]
  exact head?_append_some _ _ _ h

theorem ne_rootMsg_of_head (s : String) (c : Char) (h : s.data.head? = some c)
    (hne : c ≠ 'A') : s ≠ rootMsg := by
  intro he
  rw [he] at h
  have h2 : rootMsg.data.head? = some 'A' := by decide
  rw [h2] at h
  simp at h
  exact hne h.symm

theorem metricNameMsg_ne_root (m : Metric) (k : Nat) (p : String) :
    metricNameMsg m k p ≠ rootMsg := by
  apply ne_rootMsg_of_head _ 'M' ?_ (by decide)
  unfold metricNameMsg
  repeat apply data_head_append
  decide

theorem metricStatsMsg_ne_root (m : Metric) (k : Nat) (p : String) :
    metricStatsMsg m k p ≠ rootMsg := by
  apply ne_rootMsg_of_head _ 'M' ?_ (by decide)
  unfold metricStatsMsg
  repeat apply data_head_append
  decide

theorem metricPeriodMsg_ne_root (m : Metric) (k : Nat) (p : String) :
    metricPeriodMsg m k p ≠ rootMsg := by
  apply ne_rootMsg_of_head _ 'M' ?_ (by decide)
  unfold metricPeriodMsg
  repeat apply data_head_append
  decide

theorem discTypeEmptyMsg_ne_root (i : Nat) : discTypeEmptyMsg i ≠ rootMsg := by
  apply ne_rootMsg_of_head _ 'D' ?_ (by decide)
  unfold discTypeEmptyMsg
  repeat apply data_head_append
  decide

theorem discTypeNotInListMsg_ne_root (i : Nat) (t : String) :
    discTypeNotInListMsg i t ≠ rootMsg := by
  apply ne_rootMsg_of_head _ 'D' ?_ (by decide)
  unfold discTypeNotInListMsg
  repeat apply data_head_append
  decide

theorem discRegionsMsg_ne_root (t : String) (i : Nat) : discRegionsMsg t i ≠ rootMsg := by
  apply ne_rootMsg_of_head _ 'D' ?_ (by decide)
  unfold discRegionsMsg
  repeat apply data_head_append
  decide

theorem discMetricsMsg_ne_root (t : String) (i : Nat) : discMetricsMsg t i ≠ rootMsg := by
  apply ne_rootMsg_of_head _ 'D' ?_ (by decide)
  unfold discMetricsMsg
  repeat apply data_head_append
  decide

theorem staticNameMsg_ne_root (i : Nat) : staticNameMsg i ≠ rootMsg := by
  apply ne_rootMsg_of_head _ 'S' ?_ (by decide)
  unfold staticNameMsg
  repeat apply data_head_append
  decide

theorem staticNamespaceMsg_ne_root (n : String) (i : Nat) :
    staticNamespaceMsg n i ≠ rootMsg := by
  apply ne_rootMsg_of_head _ 'S' ?_ (by decide)
  unfold staticNamespaceMsg
  repeat apply data_head_append
  decide

theorem staticRegionsMsg_ne_root (n : String) (i : Nat) :
    staticRegionsMsg n i ≠ rootMsg := by
  apply ne_rootMsg_of_head _ 'S' ?_ (by decide)
  unfold staticRegionsMsg
  repeat apply data_head_append
  decide

theorem validateMetric_some_ne_root {m : Metric} {k : Nat} {p : String} {d : Option Job}
    {e : String} (h : (validateMetric m k p d).2 = some e) : e ≠ rootMsg := by
  unfold validateMetric at h
  split_ifs at h with h1 h2 h3 h4
  · replace h : some (metricNameMsg m k p) = some e := h
    injection h with h
    rw [← h]
    exact metricNameMsg_ne_root m k p
  · replace h : some (metricStatsMsg m k p) = some e := h
    injection h with h
    rw [← h]
    exact metricStatsMsg_ne_root m k p
  · replace h : some (metricPeriodMsg m k p) = some e := h
    injection h with h
    rw [← h]
    exact metricPeriodMsg_ne_root m k p

theorem runAll_some_ne_root (f : Nat → α → List String × Option String)
    (hf : ∀ i x e', (f i x).2 = some e' → e' ≠ rootMsg) (e : String) :
    ∀ (xs : List α) (s : Nat), (runAll f s xs).2 = some e → e ≠ rootMsg := by
  intro xs
  induction xs with
  | nil => intro s h; simp [runAll] at h
  | cons x tl ih =>
    intro s h
    unfold runAll at h
    split at h
    · rename_i w e0 heq
      replace h : some e0 = some e := h
      injection h with h
      rw [← h]
      exact hf s x e0 (by rw [heq])
    · rename_i w heq
      replace h : (runAll f (s + 1) tl).2 = some e := h
      exact ih (s + 1) h

theorem validateDiscoveryJob_some_ne_root {j : Job} {i : Nat} {e : String}
    (h : (validateDiscoveryJob j i).2 = some e) : e ≠ rootMsg := by
  unfold validateDiscoveryJob at h
  split_ifs at h with h1 h2 h3 h4
  · replace h : some (discTypeEmptyMsg i) = some e := h
    injection h with h
    rw [← h]
    exact discTypeEmptyMsg_ne_root i
  · replace h : some (discTypeNotInListMsg i j.Type') = some e := h
    injection h with h
    rw [← h]
    exact discTypeNotInListMsg_ne_root i j.Type'
  · replace h : some (discRegionsMsg j.Type' i) = some e := h
    injection h with h
    rw [← h]
    exact discRegionsMsg_ne_root j.Type' i
  · replace h : some (discMetricsMsg j.Type' i) = some e := h
    injection h with h
    rw [← h]
    exact discMetricsMsg_ne_root j.Type' i
  · exact runAll_some_ne_root _ (fun k m e' he' => validateMetric_some_ne_root he') e
      j.Metrics 0 h

theorem validateStaticJob_some_ne_root {j : Static} {i : Nat} {e : String}
    (h : (validateStaticJob j i).2 = some e) : e ≠ rootMsg := by
  unfold validateStaticJob at h
  split_ifs at h with h1 h2 h3
  · replace h : some (staticNameMsg i) = some e := h
    injection h with h
    rw [← h]
    exact staticNameMsg_ne_root i
  · replace h : some (staticNamespaceMsg j.Name i) = some e := h
    injection h with h
    rw [← h]
    exact staticNamespaceMsg_ne_root j.Name i
  · replace h : some (staticRegionsMsg j.Name i) = some e := h
    injection h with h
    rw [← h]
    exact staticRegionsMsg_ne_root j.Name i
  · exact runAll_some_ne_root _ (fun k m e' he' => validateMetric_some_ne_root he') e
      j.Metrics 0 h

theorem validate_root_iff (c : ScrapeConf) :
    (c.validate).2 = some rootMsg ↔ (c.Discovery.Jobs = none ∧ c.Static = none) := by
  constructor
  · intro h2
    by_contra hnot
    unfold ScrapeConf.validate at h2
    rw [if_neg hnot] at h2
    split at h2
    · rename_i w e0 heq
      replace h2 : some e0 = some rootMsg := h2
      injection h2 with h2
      subst h2
      exact (runAll_some_ne_root _
        (fun i x e' he' => validateDiscoveryJob_some_ne_root he') rootMsg _ 0
        (by rw [heq])) rfl
    · rename_i w heq
      replace h2 : (runAll (fun i j => validateStaticJob j i) 0 (c.Static.getD [])).2 =
          some rootMsg := h2
      exact (runAll_some_ne_root _
        (fun i x e' he' => validateStaticJob_some_ne_root he') rootMsg _ 0 h2) rfl
  · rintro ⟨h1, h2⟩
    unfold ScrapeConf.validate
    rw [if_pos ⟨h1, h2⟩]

theorem validate_root_full (c : ScrapeConf)
    (h1 : c.Discovery.Jobs = none) (h2 : c.Static = none) :
    c.validate = ([], some rootMsg) := by
  unfold ScrapeConf.validate
  rw [if_pos ⟨h1, h2⟩]

theorem normalizeRoles_jobs_none_iff (c : ScrapeConf) :
    ((c.normalizeRoles).Discovery.Jobs = none ↔ c.Discovery.Jobs = none) ∧
    ((c.normalizeRoles).Static = none ↔ c.Static = none) := by
  constructor
  · cases h : c.Discovery.Jobs <;> simp [ScrapeConf.normalizeRoles, h]
  · cases h : c.Static <;> simp [ScrapeConf.normalizeRoles, h]

theorem validateMetric_err_eq_head (m : Metric) (k : Nat) (p : String) (d : Option Job) :
    (validateMetric m k p d).2 = (metricViolations m k p d).head? := by
  unfold validateMetric metricViolations
  split_ifs <;> simp

theorem runAll_err_eq_head (f : Nat → α → List String × Option String)
    (g : Nat → α → List String) (hfg : ∀ i x, (f i x).2 = (g i x).head?) :
    ∀ (xs : List α) (s : Nat), (runAll f s xs).2 = (vlist g s xs).head? := by
  intro xs
  induction xs with
  | nil => intro s; rfl
  | cons x tl ih =>
    intro s
    unfold runAll vlist
    split
    · rename_i w e heq
      have h1 : (g s x).head? = some e := by rw [← hfg s x, heq]
      cases hg : g s x with
      | nil => rw [hg] at h1; simp at h1
      | cons y ys =>
        rw [hg] at h1
        simp at h1
        simp [hg, h1]
    · rename_i w heq
      have h1 : (g s x).head? = none := by rw [← hfg s x, heq]
      cases hg : g s x with
      | nil => simpa [hg] using ih (s + 1)
      | cons y ys => rw [hg] at h1; simp at h1

theorem validateDiscoveryJob_err_eq_head (j : Job) (i : Nat) :
    (validateDiscoveryJob j i).2 = (discJobViolations j i).head? := by
  unfold validateDiscoveryJob discJobViolations
  split_ifs <;>
    simp [runAll_err_eq_head _ _
      (fun k m => validateMetric_err_eq_head m k (discParent j.Type' i) (some j))]

theorem validateStaticJob_err_eq_head (j : Static) (i : Nat) :
    (validateStaticJob j i).2 = (staticJobViolations j i).head? := by
  unfold validateStaticJob staticJobViolations
  split_ifs <;>
    simp [runAll_err_eq_head _ _
      (fun k m => validateMetric_err_eq_head m k (staticParent j.Name i) none)]

end Yace

namespace Yace

/-- C1 (counterexample): a configuration that explicitly sets
`discovery.jobs: []` and `static: []` decodes to non-nil empty slices;
`Load` on it returns no error at all, contradicting the claim that every
document with both job lists empty fails with the root-invariant error. -/
theorem c1_counterexample :
    ((⟨⟨[], some []⟩, some []⟩ : ScrapeConf).load).2.2 = none := by decide

/-- C1 (amended): `Load` returns the root-invariant error exactly when
both `Discovery.Jobs` and `Static` are nil slices — the keys are absent
from the document; no other configuration ever produces the root message,
since every other error message starts with a different prefix.  In the
nil/nil case the result is exactly the root message with no warnings, and
a document whose two lists are explicitly-empty non-nil slices passes the
root check and `Load` succeeds. -/
theorem c1_root_check_amended (c : ScrapeConf) :
    ((c.load).2.2 = some rootMsg ↔ (c.Discovery.Jobs = none ∧ c.Static = none)) ∧
    (c.Discovery.Jobs = none ∧ c.Static = none → (c.load).2 = ([], some rootMsg)) ∧
    (c.Discovery.Jobs = some [] ∧ c.Static = some [] → (c.load).2 = ([], none)) := by
  have hload : (c.load).2 = (c.normalizeRoles).validate := rfl
  refine ⟨?_, ?_, ?_⟩
  · have hsnd : (c.load).2.2 = ((c.normalizeRoles).validate).2 := rfl
    rw [hsnd, validate_root_iff]
    exact and_congr (normalizeRoles_jobs_none_iff c).1 (normalizeRoles_jobs_none_iff c).2
  · rintro ⟨h1, h2⟩
    rw [hload]
    exact validate_root_full _ ((normalizeRoles_jobs_none_iff c).1.mpr h1)
      ((normalizeRoles_jobs_none_iff c).2.mpr h2)
  · rintro ⟨h1, h2⟩
    simp [ScrapeConf.load, ScrapeConf.normalizeRoles, ScrapeConf.validate, h1, h2, runAll]

/-- C1 witness: the amended statement applied to the fully-absent and the
explicitly-empty configurations. -/
theorem c1_witness :
    (((⟨⟨[], none⟩, none⟩ : ScrapeConf).load).2 = ([], some rootMsg)) ∧
    (((⟨⟨[], some []⟩, some []⟩ : ScrapeConf).load).2 = ([], none)) :=
  ⟨(c1_root_check_amended _).2.1 ⟨rfl, rfl⟩, (c1_root_check_amended _).2.2 ⟨rfl, rfl⟩⟩

/-- C2: after `Load`'s normalization step, every discovery job and every
static job whose decoded `RoleArns` list was empty holds `[""]`, and every
job whose `RoleArns` list was non-empty is left entirely unchanged. -/
theorem c2_roleArns_default (c : ScrapeConf) (i : Nat) :
    (i < (c.Discovery.Jobs.getD []).length →
      ((((c.Discovery.Jobs.getD []).getD i {}).RoleArns = [] →
        (((c.load).1.Discovery.Jobs.getD []).getD i {}).RoleArns = [""]) ∧
       (((c.Discovery.Jobs.getD []).getD i {}).RoleArns ≠ [] →
        ((c.load).1.Discovery.Jobs.getD []).getD i {} =
          (c.Discovery.Jobs.getD []).getD i {}))) ∧
    (i < (c.Static.getD []).length →
      ((((c.Static.getD []).getD i {}).RoleArns = [] →
        (((c.load).1.Static.getD []).getD i {}).RoleArns = [""]) ∧
       (((c.Static.getD []).getD i {}).RoleArns ≠ [] →
        ((c.load).1.Static.getD []).getD i {} = (c.Static.getD []).getD i {}))) := by
  have hload : (c.load).1 = c.normalizeRoles := rfl
  constructor
  · intro hi
    have hmap : (c.load).1.Discovery.Jobs.getD [] =
        (c.Discovery.Jobs.getD []).map fixJobRoles := by
      rw [hload]
      cases h : c.Discovery.Jobs <;> simp [ScrapeConf.normalizeRoles, h]
    rw [hmap, getD_map_lt fixJobRoles (c.Discovery.Jobs.getD []) i {} {} hi]
    constructor
    · intro h0
      unfold fixJobRoles
      rw [if_pos h0]
    · intro h0
      unfold fixJobRoles
      rw [if_neg h0]
  · intro hi
    have hmap : (c.load).1.Static.getD [] = (c.Static.getD []).map fixStaticRoles := by
      rw [hload]
      cases h : c.Static <;> simp [ScrapeConf.normalizeRoles, h]
    rw [hmap, getD_map_lt fixStaticRoles (c.Static.getD []) i {} {} hi]
    constructor
    · intro h0
      unfold fixStaticRoles
      rw [if_pos h0]
    · intro h0
      unfold fixStaticRoles
      rw [if_neg h0]

/-- C2 witness: a discovery job with empty `RoleArns` gets `[""]`, a
static job with `RoleArns = ["arn:a"]` is unchanged. -/
theorem c2_witness :
    ((((⟨⟨[], some [⟨["r"], "ec2", [], [], [], [], [], 0, 0, 0, false⟩]⟩,
        some [⟨"x", ["r"], ["arn:a"], "ns", [], [], []⟩]⟩ : ScrapeConf).load).1.Discovery.Jobs.getD
          []).getD 0 {}).RoleArns = [""] ∧
    (((⟨⟨[], some [⟨["r"], "ec2", [], [], [], [], [], 0, 0, 0, false⟩]⟩,
        some [⟨"x", ["r"], ["arn:a"], "ns", [], [], []⟩]⟩ : ScrapeConf).load).1.Static.getD
          []).getD 0 {} = ⟨"x", ["r"], ["arn:a"], "ns", [], [], []⟩ := by
  refine ⟨((c2_roleArns_default _ 0).1 (by decide)).1 (by decide),
          ((c2_roleArns_default _ 0).2 (by decide)).2 (by decide)⟩

/-- C3: for a configuration with a discovery job whose `Type` is not a
case-sensitive member of `supportedServices`, load fails; the job's own
validation error is the not-in-list message containing the offending type
string when the type is non-empty, and the empty-type message naming the
job index when it is empty. -/
theorem c3_type_allowlist (c : ScrapeConf) (js : List Job) (i : Nat)
    (hjs : c.Discovery.Jobs = some js) (hi : i < js.length)
    (hbad : (js.get ⟨i, hi⟩).Type' ∉ supportedServices) :
    (c.validate).2 ≠ none ∧
    ((js.get ⟨i, hi⟩).Type' ≠ "" →
      (validateDiscoveryJob (js.get ⟨i, hi⟩) i).2 =
        some (discTypeNotInListMsg i (js.get ⟨i, hi⟩).Type') ∧
      strIncludes (discTypeNotInListMsg i (js.get ⟨i, hi⟩).Type') (js.get ⟨i, hi⟩).Type') ∧
    ((js.get ⟨i, hi⟩).Type' = "" →
      (validateDiscoveryJob (js.get ⟨i, hi⟩) i).2 = some (discTypeEmptyMsg i) ∧
      strIncludes (discTypeEmptyMsg i) (toString i)) ∧
    ((∀ k (hk : k < i), (validateDiscoveryJob (js.get ⟨k, Nat.lt_trans hk hi⟩) k).2 = none) →
      ∃ e, (c.validate).2 = some e ∧ (validateDiscoveryJob (js.get ⟨i, hi⟩) i).2 = some e) := by
  have hnotin : stringInSlice (js.get ⟨i, hi⟩).Type' supportedServices = false := by
    rw [← Bool.not_eq_true, stringInSlice_iff]
    exact hbad
  refine ⟨?_, ?_, ?_, ?_⟩
  · intro h
    have hd := validate_err_none_disc h
    rw [hjs] at hd
    simp only [Option.getD_some] at hd
    have hone := runAll_err_none _ js 0 hd i hi
    simp only [Nat.zero_add] at hone
    have := validateDiscoveryJob_err_none hone
    rw [hnotin] at this
    exact absurd this.2 (by simp)
  · intro ht
    constructor
    · unfold validateDiscoveryJob
      rw [if_neg ht, if_pos hnotin]
    · apply strIncludes_of_data _ _
        ("Discovery job [" ++ toString i ++ "]: Service is not in known list!: ").data []
      simp [discTypeNotInListMsg, String.data_append]
  · intro ht
    constructor
    · unfold validateDiscoveryJob
      rw [if_pos ht]
    · apply strIncludes_of_data _ _ ("Discovery job [").data
        ("]: Type should not be empty").data
      simp [discTypeEmptyMsg, String.data_append]
  · intro hprev
    have hex : ∃ e, (validateDiscoveryJob (js.get ⟨i, hi⟩) i).2 = some e := by
      unfold validateDiscoveryJob
      by_cases ht : (js.get ⟨i, hi⟩).Type' = ""
      · rw [if_pos ht]
        exact ⟨_, rfl⟩
      · rw [if_neg ht, if_pos hnotin]
        exact ⟨_, rfl⟩
    obtain ⟨e, he⟩ := hex
    refine ⟨e, ?_, he⟩
    have hrun : (runAll (fun k j => validateDiscoveryJob j k) 0 js).2 = some e := by
      apply runAll_err_at _ js 0 i hi e
      · intro k hk
        simpa using hprev k hk
      · simpa using he
    unfold ScrapeConf.validate
    rw [if_neg (by simp [hjs])]
    rw [hjs]
    simp only [Option.getD_some]
    rcases hr : runAll (fun k j => validateDiscoveryJob j k) 0 js with ⟨w, eo⟩
    rw [hr] at hrun
    simp only at hrun
    subst hrun
    rfl

/-- C3 witness: the spec's Scenario D type `notarealservice`. -/
theorem c3_witness :
    (((⟨⟨[], some [⟨["r"], "notarealservice", [], [], [], [], [], 0, 0, 0, false⟩]⟩,
        none⟩ : ScrapeConf).validate).2 ≠ none) ∧
    strIncludes (discTypeNotInListMsg 0 "notarealservice") "notarealservice" := by
  have h := c3_type_allowlist
    ⟨⟨[], some [⟨["r"], "notarealservice", [], [], [], [], [], 0, 0, 0, false⟩]⟩, none⟩
    [⟨["r"], "notarealservice", [], [], [], [], [], 0, 0, 0, false⟩] 0 rfl (by decide)
    (by decide)
  exact ⟨h.1, (h.2.1 (by decide)).2⟩

/-- C4: for a metric of a discovery job that passes the name and
statistics checks, the effective period is the metric's own period when
non-zero and the enclosing job's period when zero, and the metric's
validation returns the period error exactly when this effective period is
less than 1. -/
theorem c4_effective_period (m : Metric) (k : Nat) (p : String) (j : Job)
    (hname : m.Name ≠ "") (hstats : m.Statistics ≠ []) :
    effPeriod m (some j) = (if m.Period = 0 then j.Period else m.Period) ∧
    ((validateMetric m k p (some j)).2 = some (metricPeriodMsg m k p) ↔
      effPeriod m (some j) < 1) := by
  refine ⟨rfl, ?_⟩
  unfold validateMetric
  rw [if_neg hname, if_neg hstats]
  by_cases hp : effPeriod m (some j) < 1
  · simp [hp]
  · split_ifs <;> simp_all

/-- C4 witness: a metric with period unset inherits the job period 300, so
the positivity check passes and no period error is raised. -/
theorem c4_witness :
    effPeriod ⟨"CPUUtilization", ["Average"], [], 0, 0, 0, false, false⟩
      (some ⟨["r"], "ec2", [], [], [], [],
        [⟨"CPUUtilization", ["Average"], [], 0, 0, 0, false, false⟩], 0, 0, 300, false⟩) = 300 ∧
    (validateMetric ⟨"CPUUtilization", ["Average"], [], 0, 0, 0, false, false⟩ 0
      (discParent "ec2" 0)
      (some ⟨["r"], "ec2", [], [], [], [],
        [⟨"CPUUtilization", ["Average"], [], 0, 0, 0, false, false⟩], 0, 0, 300, false⟩)).2 ≠
      some (metricPeriodMsg ⟨"CPUUtilization", ["Average"], [], 0, 0, 0, false, false⟩ 0
        (discParent "ec2" 0)) := by
  have h := c4_effective_period ⟨"CPUUtilization", ["Average"], [], 0, 0, 0, false, false⟩ 0
    (discParent "ec2" 0)
    ⟨["r"], "ec2", [], [], [], [],
      [⟨"CPUUtilization", ["Average"], [], 0, 0, 0, false, false⟩], 0, 0, 300, false⟩
    (by decide) (by decide)
  constructor
  · rw [h.1]; rfl
  · intro hcontra
    have := h.2.mp hcontra
    rw [h.1] at this
    exact absurd this (by decide)

/-- C5: whenever any metric of any static job has period 0, load fails;
and the validation of a static-job metric (which receives a nil discovery
pointer, so no job-level period can be consulted) with period 0 and valid
name/statistics returns exactly the period-positivity error. -/
theorem c5_static_period_no_inheritance (c : ScrapeConf) (ss : List Static) (si : Nat)
    (hss : c.Static = some ss) (hsi : si < ss.length) (mi : Nat)
    (hmi : mi < (ss.get ⟨si, hsi⟩).Metrics.length)
    (hp : ((ss.get ⟨si, hsi⟩).Metrics.get ⟨mi, hmi⟩).Period = 0) :
    (c.validate).2 ≠ none ∧
    (∀ (m : Metric) (k : Nat) (parent : String), m.Period = 0 → m.Name ≠ "" →
      m.Statistics ≠ [] →
      (validateMetric m k parent none).2 = some (metricPeriodMsg m k parent)) := by
  constructor
  · intro h
    have hs := validate_err_none_static h
    rw [hss] at hs
    simp only [Option.getD_some] at hs
    have hone := runAll_err_none _ ss 0 hs si hsi
    simp only [Nat.zero_add] at hone
    have hjob := validateStaticJob_err_none hone
    have hmet := runAll_err_none _ _ 0 hjob.2.2.2 mi hmi
    simp only [Nat.zero_add] at hmet
    have h1 := (validateMetric_err_none hmet).2.2
    have h2 : effPeriod ((ss.get ⟨si, hsi⟩).Metrics.get ⟨mi, hmi⟩) none =
        ((ss.get ⟨si, hsi⟩).Metrics.get ⟨mi, hmi⟩).Period := rfl
    rw [h2, hp] at h1
    exact absurd h1 (by decide)
  · intro m k parent hmp hname hstats
    have h2 : effPeriod m none = m.Period := rfl
    unfold validateMetric
    rw [if_neg hname, if_neg hstats, if_pos (by rw [h2, hmp]; decide)]

/-- C5 witness: a static job whose only metric has period 0. -/
theorem c5_witness :
    (((⟨⟨[], none⟩,
        some [⟨"x", ["r"], [], "ns", [], [],
          [⟨"m", ["Average"], [], 0, 0, 0, false, false⟩]⟩]⟩ : ScrapeConf).validate).2 ≠ none) ∧
    (validateMetric ⟨"m", ["Average"], [], 0, 0, 0, false, false⟩ 0 (staticParent "x" 0)
      none).2 = some (metricPeriodMsg ⟨"m", ["Average"], [], 0, 0, 0, false, false⟩ 0
        (staticParent "x" 0)) := by
  have h := c5_static_period_no_inheritance
    ⟨⟨[], none⟩,
      some [⟨"x", ["r"], [], "ns", [], [], [⟨"m", ["Average"], [], 0, 0, 0, false, false⟩]⟩]⟩
    [⟨"x", ["r"], [], "ns", [], [], [⟨"m", ["Average"], [], 0, 0, 0, false, false⟩]⟩]
    0 rfl (by decide) 0 (by decide) (by decide)
  exact ⟨h.1, h.2 _ 0 (staticParent "x" 0) (by decide) (by decide) (by decide)⟩

/-- C6: a metric whose effective length is less than its effective period
passes validation with a logged warning and no error; on the spec's
Scenario B configuration (metric period 300, job-level length 60) the
whole load succeeds and a warning is logged. -/
theorem c6_length_warning_soft :
    (∀ (m : Metric) (k : Nat) (p : String) (d : Option Job),
      m.Name ≠ "" → m.Statistics ≠ [] → 1 ≤ effPeriod m d →
      effLength m d < effPeriod m d →
      validateMetric m k p d =
        ([metricLengthWarnMsg m k p (effLength m d) (effPeriod m d)], none)) ∧
    ((scenarioB.load).2.2 = none ∧ (scenarioB.load).2.1 ≠ []) := by
  constructor
  · intro m k p d hname hstats hper hlen
    unfold validateMetric
    rw [if_neg hname, if_neg hstats, if_neg (by omega), if_pos hlen]
  · exact ⟨by decide, by decide⟩

/-- C6 witness: the Scenario B metric inherits length 60 against period
300 and validates to a warning with no error. -/
theorem c6_witness :
    validateMetric scenarioBMetric 0 (discParent "ec2" 0) (some scenarioBJob) =
      ([metricLengthWarnMsg scenarioBMetric 0 (discParent "ec2" 0)
        (effLength scenarioBMetric (some scenarioBJob))
        (effPeriod scenarioBMetric (some scenarioBJob))], none) :=
  c6_length_warning_soft.1 scenarioBMetric 0 (discParent "ec2" 0) (some scenarioBJob)
    (by decide) (by decide) (by decide) (by decide)

/-- C7 (counterexample): a static-job metric with length 0 and period 1 is
NOT a hard failure — its validation returns no error, and a full load of a
static job containing it succeeds with only a warning, contradicting the
claim that a zero length in a static-job metric fails the positivity
check. -/
theorem c7_counterexample :
    (validateMetric ⟨"m", ["Average"], [], 1, 0, 0, false, false⟩ 0 (staticParent "x" 0)
      none).2 = none ∧
    ((⟨⟨[], none⟩, some [⟨"x", ["r"], [], "ns", [], [],
      [⟨"m", ["Average"], [], 1, 0, 0, false, false⟩]⟩]⟩ : ScrapeConf).load).2.2 = none ∧
    ((⟨⟨[], none⟩, some [⟨"x", ["r"], [], "ns", [], [],
      [⟨"m", ["Average"], [], 1, 0, 0, false, false⟩]⟩]⟩ : ScrapeConf).load).2.1 ≠ [] := by
  refine ⟨by decide, by decide, by decide⟩

/-- C7 (amended): a zero length in a static-job metric does not inherit
any job-level value and, being below the positive effective period, only
triggers the non-fatal length warning: the metric passes validation. -/
theorem c7_zero_length_warns (m : Metric) (k : Nat) (p : String)
    (hname : m.Name ≠ "") (hstats : m.Statistics ≠ []) (hper : 1 ≤ m.Period)
    (hlen : m.Length = 0) :
    validateMetric m k p none = ([metricLengthWarnMsg m k p 0 m.Period], none) := by
  have hP : effPeriod m none = m.Period := rfl
  have hL : effLength m none = m.Length := rfl
  unfold validateMetric
  rw [if_neg hname, if_neg hstats, if_neg (by rw [hP]; omega),
    if_pos (by rw [hP, hL, hlen]; omega), hP, hL, hlen]

/-- C7 witness: the amended statement at a concrete static-job metric. -/
theorem c7_witness :
    validateMetric ⟨"mm", ["Maximum"], [], 5, 0, 0, false, false⟩ 1 (staticParent "y" 0)
      none =
      ([metricLengthWarnMsg ⟨"mm", ["Maximum"], [], 5, 0, 0, false, false⟩ 1
        (staticParent "y" 0) 0 5], none) :=
  c7_zero_length_warns ⟨"mm", ["Maximum"], [], 5, 0, 0, false, false⟩ 1
    (staticParent "y" 0) (by decide) (by decide) (by decide) rfl

/-- C8: validation is deterministic and fail-fast — the error returned by
`validate` is always the head of `specViolations`, the list of all rule
violations enumerated in the documented order (root invariant, discovery
jobs in sequence order, static jobs in sequence order, each job's metrics
in sequence order), so the reported error is the first violated rule and
no later violation is reported while an earlier one exists. -/
theorem c8_fail_fast_first_violation (c : ScrapeConf) :
    (c.validate).2 = (specViolations c).head? := by
  unfold ScrapeConf.validate specViolations
  split
  · rfl
  · split
    · rename_i w e heq
      have hd : (vlist (fun i j => discJobViolations j i) 0
          (c.Discovery.Jobs.getD [])).head? = some e := by
        rw [← runAll_err_eq_head _ _ (fun i j => validateDiscoveryJob_err_eq_head j i), heq]
      cases hv : vlist (fun i j => discJobViolations j i) 0 (c.Discovery.Jobs.getD []) with
      | nil => rw [hv] at hd; simp at hd
      | cons y ys =>
        rw [hv] at hd
        simp at hd
        simp [hv, hd]
    · rename_i w heq
      have hd : (vlist (fun i j => discJobViolations j i) 0
          (c.Discovery.Jobs.getD [])).head? = none := by
        rw [← runAll_err_eq_head _ _ (fun i j => validateDiscoveryJob_err_eq_head j i), heq]
      have hnil : vlist (fun i j => discJobViolations j i) 0 (c.Discovery.Jobs.getD []) = [] := by
        cases hv : vlist (fun i j => discJobViolations j i) 0 (c.Discovery.Jobs.getD []) with
        | nil => rfl
        | cons y ys => rw [hv] at hd; simp at hd
      rw [hnil]
      simpa using runAll_err_eq_head _ _ (fun i j => validateStaticJob_err_eq_head j i) _ 0

/-- C9: for a configuration whose first static job has a non-empty name
and an empty namespace, load fails; the job's validation error is the
namespace message, which contains "Namespace should not be empty", the
job's name, and the job index 0. -/
theorem c9_static_namespace (c : ScrapeConf) (s0 : Static) (rest : List Static)
    (hs : c.Static = some (s0 :: rest)) (hn : s0.Name ≠ "") (hns : s0.Namespace = "") :
    (c.validate).2 ≠ none ∧
    (validateStaticJob s0 0).2 = some (staticNamespaceMsg s0.Name 0) ∧
    strIncludes (staticNamespaceMsg s0.Name 0) "Namespace should not be empty" ∧
    strIncludes (staticNamespaceMsg s0.Name 0) s0.Name ∧
    strIncludes (staticNamespaceMsg s0.Name 0) (toString (0 : Nat)) ∧
    ((runAll (fun i j => validateDiscoveryJob j i) 0 (c.Discovery.Jobs.getD [])).2 = none →
      (c.validate).2 = some (staticNamespaceMsg s0.Name 0)) := by
  refine ⟨?_, ?_, ?_, ?_, ?_, ?_⟩
  · intro h
    have hst := validate_err_none_static h
    rw [hs] at hst
    simp only [Option.getD_some] at hst
    have hone := runAll_err_none _ (s0 :: rest) 0 hst 0 (by simp)
    simp only [Nat.zero_add] at hone
    exact absurd hns (validateStaticJob_err_none hone).2.1
  · unfold validateStaticJob
    rw [if_neg hn, if_pos hns]
  · apply strIncludes_of_data _ _
      ("Static job [" ++ s0.Name ++ "/" ++ toString (0 : Nat) ++ "]: ").data []
    simp [staticNamespaceMsg, String.data_append]
  · apply strIncludes_of_data _ _ ("Static job [").data
      ("/" ++ toString (0 : Nat) ++ "]: Namespace should not be empty").data
    simp [staticNamespaceMsg, String.data_append]
  · apply strIncludes_of_data _ _ ("Static job [" ++ s0.Name ++ "/").data
      ("]: Namespace should not be empty").data
    simp [staticNamespaceMsg, String.data_append]
  · intro hdisc
    have hsj : (validateStaticJob s0 0).2 = some (staticNamespaceMsg s0.Name 0) := by
      unfold validateStaticJob
      rw [if_neg hn, if_pos hns]
    have hrun : (runAll (fun i j => validateStaticJob j i) 0 (s0 :: rest)).2 =
        some (staticNamespaceMsg s0.Name 0) := by
      apply runAll_err_at _ _ 0 0 (by simp)
      · intro k hk
        exact absurd hk (Nat.not_lt_zero k)
      · simpa using hsj
    unfold ScrapeConf.validate
    rw [if_neg (by simp [hs])]
    rcases hr : runAll (fun i j => validateDiscoveryJob j i) 0
        (c.Discovery.Jobs.getD []) with ⟨w, eo⟩
    rw [hr] at hdisc
    simp only at hdisc
    subst hdisc
    rw [hs]
    simpa using hrun

/-- C9 witness: the spec's Scenario C static job `name: "x"`,
`namespace: ""`; the load error is the namespace message itself. -/
theorem c9_witness :
    (((⟨⟨[], none⟩, some [⟨"x", [], [], "", [], [], []⟩]⟩ : ScrapeConf).validate).2 ≠ none) ∧
    (((⟨⟨[], none⟩, some [⟨"x", [], [], "", [], [], []⟩]⟩ : ScrapeConf).validate).2 =
      some (staticNamespaceMsg "x" 0)) := by
  have h := c9_static_namespace ⟨⟨[], none⟩, some [⟨"x", [], [], "", [], [], []⟩]⟩
    ⟨"x", [], [], "", [], [], []⟩ [] rfl (by decide) rfl
  exact ⟨h.1, h.2.2.2.2.2 (by rfl)⟩

/-- C10: when `Load` returns a validation error, the receiver it leaves
behind is exactly the normalized configuration — the decoded tree with the
`RoleArns` defaults applied (no job of the returned state has an empty
`RoleArns` list), with nothing rolled back or cleared. -/
theorem c10_receiver_on_failure (c : ScrapeConf) (h : (c.load).2.2 ≠ none) :
    (c.load).1 = c.normalizeRoles ∧
    (∀ j ∈ (c.load).1.Discovery.Jobs.getD [], j.RoleArns ≠ []) ∧
    (∀ s ∈ (c.load).1.Static.getD [], s.RoleArns ≠ []) := by
  refine ⟨rfl, ?_, ?_⟩
  · intro j hj
    have hmap : (c.load).1.Discovery.Jobs.getD [] =
        (c.Discovery.Jobs.getD []).map fixJobRoles := by
      cases hd : c.Discovery.Jobs <;>
        simp [ScrapeConf.load, ScrapeConf.normalizeRoles, hd]
    rw [hmap] at hj
    obtain ⟨j0, _, rfl⟩ := List.mem_map.mp hj
    exact fixJobRoles_roleArns_ne j0
  · intro s hsmem
    have hmap : (c.load).1.Static.getD [] = (c.Static.getD []).map fixStaticRoles := by
      cases hd : c.Static <;>
        simp [ScrapeConf.load, ScrapeConf.normalizeRoles, hd]
    rw [hmap] at hsmem
    obtain ⟨s0, _, rfl⟩ := List.mem_map.mp hsmem
    exact fixStaticRoles_roleArns_ne s0

/-- C10 witness: a configuration failing validation (unknown type `nope`)
still leaves the normalized state, with defaulted `RoleArns`, in the
receiver. -/
theorem c10_witness :
    (((⟨⟨[], some [⟨["r"], "nope", [], [], [], [], [], 0, 0, 0, false⟩]⟩,
        none⟩ : ScrapeConf).load).1 =
      (⟨⟨[], some [⟨["r"], "nope", [], [], [], [], [], 0, 0, 0, false⟩]⟩,
        none⟩ : ScrapeConf).normalizeRoles) ∧
    (∀ j ∈ ((⟨⟨[], some [⟨["r"], "nope", [], [], [], [], [], 0, 0, 0, false⟩]⟩,
        none⟩ : ScrapeConf).load).1.Discovery.Jobs.getD [], j.RoleArns ≠ []) := by
  have h := c10_receiver_on_failure
    ⟨⟨[], some [⟨["r"], "nope", [], [], [], [], [], 0, 0, 0, false⟩]⟩, none⟩ (by decide)
  exact ⟨h.1, h.2.1⟩

end Yace
